import Mathlib

/-!
Verification development for the dynamic GraphQL schema compiler and query
resolver of the Directus `GraphQLService` (services/graphql.ts).

The TypeScript source is shallowly embedded below: each TypeScript function
relevant to a claim becomes an executable Lean definition that follows the
source line by line.  External collaborators (the knex database handle, the
`sanitize-query` utility, the graphql-js `validate`/`execute` engine, the
static system-collection metadata table, and the scalar mapping table
`get-graphql-type`) are passed in as parameters or represented symbolically,
exactly as the spec scopes them out.
-/

namespace Directus

/-! ## Schema data model (types.ts: Relation, Field, Collection, SchemaOverview) -/

/-- A relation row, as in the `Relation` type: the "many" side always carries
`many_collection`/`many_field`; to-one relations carry `one_collection` and
`one_field`; many-to-any relations instead carry `one_collection_field` (the
discriminator field on the many side) and `one_allowed_collections`. -/
structure Relation where
  many_collection : String
  many_field : String
  one_collection : Option String
  one_field : Option String
  one_collection_field : Option String
  one_allowed_collections : Option (List String)
deriving DecidableEq

/-- A field of a collection: its name, its declared scalar kind, and a note. -/
structure Field where
  field : String
  type : String
  note : Option String := none
deriving DecidableEq

/-- A collection of the schema overview: name, primary-key field name,
singleton flag, note and its ordered field list (`Object.values` order of the
TypeScript record). -/
structure Collection where
  collection : String
  primary : String
  singleton : Bool := false
  note : Option String := none
  fields : List Field
deriving DecidableEq

/-- The schema overview handed to the service: collections in
`Object.entries` order plus the loaded relation rows. -/
structure SchemaOverview where
  collections : List Collection
  relations : List Relation
deriving DecidableEq

/-- Semantics of the TypeScript non-null assertion `x!` on a nullable string:
a `null` value flows on and, used as a dictionary key or template fragment,
behaves as the string "undefined" does nowhere observable; we only need a
total placeholder for the (unreachable in the claims) null case. -/
def bangStr (o : Option String) : String := o.getD "undefined"

/-- Semantics of `x!` on a nullable string list (iterating `null` would throw
in TypeScript; the classifier below guarantees the list is present wherever
the source iterates it). -/
def bangList (o : Option (List String)) : List String := o.getD []

/-- Character-list core of `String.startsWith`, kept kernel-reducible. -/
def strStartsAux : List Char → List Char → Bool
  | [], _ => true
  | _ :: _, [] => false
  | p :: ps, c :: cs => p == c && strStartsAux ps cs

/-- Model of JavaScript `s.startsWith(pre)` (and of `String.startsWith`). -/
def strStarts (s pre : String) : Bool := strStartsAux pre.toList s.toList

/-- Relation kinds as returned by `get-relation-type`. -/
inductive RelationType where
  | m2o
  | o2m
  | m2a
deriving DecidableEq

/-- Modelled from the spec: the classifier `getRelationType` lives in
`utils/get-relation-type`, outside the given source files.  Per §4.1 of the
spec, a relation is many-to-any when it declares a discriminator field and a
set of allowed target collections (both on the many side), many-to-one when
the (collection, field) pair matches the many side, one-to-many when it
matches the one side, and no relation kind otherwise. -/
def getRelationType (relation : Relation) (collection field : String) : Option RelationType :=
  if relation.many_collection == collection && relation.many_field == field
      && relation.one_collection_field.isSome && relation.one_allowed_collections.isSome then
    some RelationType.m2a
  else if relation.many_collection == collection && relation.many_field == field then
    some RelationType.m2o
  else if relation.one_collection == some collection && relation.one_field == some field then
    some RelationType.o2m
  else
    none

/-- The relation lookup both compilers perform:
`relations.find((relation) => relation.many_collection === c && relation.many_field === f
|| relation.one_collection === c && relation.one_field === f)`. -/
def findRelationForField (relations : List Relation) (collection field : String) : Option Relation :=
  relations.find? fun relation =>
    (relation.many_collection == collection && relation.many_field == field)
    || (relation.one_collection == some collection && relation.one_field == some field)

/-! ## Compiled GraphQL types

Object and input types reference one another lazily through the
`graphqlSchema` / `filterTypes` dictionaries, which are keyed by collection
name; a compiled type reference is therefore represented by the name it is
looked up under. -/

/-- A compiled GraphQL type term.  `objectRef c` is `graphqlSchema[c].type`,
`filterRef c` is `filterTypes[c]` (the input type named `c ++ "_filter"`),
`unionT` is the `GraphQLUnionType` built for a many-to-any field (members
listed by collection name), `scalarT t` stands for `getGraphQLType(t)`, and
`undef` is the TypeScript `undefined`. -/
inductive GType where
  | scalarT (t : String)
  | idT
  | stringT
  | intT
  | booleanT
  | objectRef (collection : String)
  | filterRef (collection : String)
  | listOf (t : GType)
  | unionT (name : String) (members : List String)
  | undef
deriving DecidableEq

/-- Modelled from the spec: `get-graphql-type` (the low-level scalar mapping
table) is an external collaborator, so the mapping is represented
symbolically. -/
def getGraphQLType (t : String) : GType := GType.scalarT t

/-- One compiled output field: its type and its argument map. -/
structure GFieldConfig where
  type : GType
  args : List (String × GType) := []
deriving DecidableEq

/-- The shared argument list `this.args` (sort, limit, offset, page, search). -/
def sharedArgs : List (String × GType) :=
  [("sort", GType.listOf GType.stringT),
   ("limit", GType.intT),
   ("offset", GType.intT),
   ("page", GType.intT),
   ("search", GType.stringT)]

/-- The body of the per-field loop of the object-type `fields` thunk inside
`getDynamicQuerySchema`: reserved names are skipped (with a logged warning),
relation fields get the related object type (m2o), a list with the shared
args plus a filter arg (o2m), or a union over the allowed collections (m2a),
and plain fields get the scalar type (the primary field is forced to
`GraphQLID`).  The relation lookup uses the service schema relations
(`this.schema.relations`). -/
def objectFieldEntry (serviceRelations : List Relation) (collection : Collection)
    (field : Field) : Option (String × GFieldConfig) :=
  if strStarts field.field "__" then
    none
  else
    some (field.field,
      match findRelationForField serviceRelations collection.collection field.field with
      | some rel =>
        match getRelationType rel collection.collection field.field with
        | some RelationType.m2o =>
          { type := GType.objectRef (bangStr rel.one_collection) }
        | some RelationType.o2m =>
          { type := GType.listOf (GType.objectRef rel.many_collection),
            args := sharedArgs ++ [("filter", GType.filterRef rel.many_collection)] }
        | some RelationType.m2a =>
          { type := GType.unionT (collection.collection ++ "__" ++ field.field)
              (bangList rel.one_allowed_collections) }
        | none =>
          -- unreachable: a relation returned by the find above always classifies
          { type := GType.undef }
      | none =>
        { type := if collection.primary == field.field then GType.idT
                  else getGraphQLType field.type })

/-- The compiled `fields` map of the object type of one collection. -/
def fieldsObjectFor (serviceRelations : List Relation) (collection : Collection) :
    List (String × GFieldConfig) :=
  collection.fields.filterMap (objectFieldEntry serviceRelations collection)

/-- A member of a compiled filter-input type: either a plain type reference
(the `_and`/`_or` lists and the embedded related filter types) or the inline
per-field operator input object. -/
inductive FilterEntryType where
  | ref (t : GType)
  | opInput (name : String) (ops : List (String × GType))
deriving DecidableEq

/-- The body of the per-field loop of the filter-type `fields` thunk inside
`getFilterArgs`: reserved names are skipped; a field classified m2o or o2m
embeds the related collection's filter type; the m2a case is left unhandled
(the source carries a TODO there); non-relation fields get the 14-operator
input object, with list types for set membership and booleans for the
null/empty checks. -/
def filterFieldEntry (schema : SchemaOverview) (collectionName : String)
    (primary : String) (field : Field) : Option (String × FilterEntryType) :=
  if strStarts field.field "__" then
    none
  else
    match findRelationForField schema.relations collectionName field.field with
    | some rel =>
      match getRelationType rel collectionName field.field with
      | some RelationType.m2o =>
        some (field.field, FilterEntryType.ref (GType.filterRef (bangStr rel.one_collection)))
      | some RelationType.o2m =>
        some (field.field, FilterEntryType.ref (GType.filterRef rel.many_collection))
      | _ => none
    | none =>
      let fieldType := if primary == field.field then GType.idT else getGraphQLType field.type
      some (field.field, FilterEntryType.opInput (collectionName ++ "_" ++ field.field ++ "_filter_operators")
        [("_eq", fieldType),
         ("_neq", fieldType),
         ("_contains", fieldType),
         ("_ncontains", fieldType),
         ("_in", GType.listOf fieldType),
         ("_nin", GType.listOf fieldType),
         ("_gt", fieldType),
         ("_gte", fieldType),
         ("_lt", fieldType),
         ("_lte", fieldType),
         ("_null", GType.booleanT),
         ("_nnull", GType.booleanT),
         ("_empty", GType.booleanT),
         ("_nempty", GType.booleanT)])

/-- The compiled `fields` map of `filterTypes[collectionName]` (the input
type named `collectionName ++ "_filter"` built by `getFilterArgs`): the
boolean composition members first, then one entry per eligible field. -/
def getFilterArgsFields (schema : SchemaOverview) (collectionName : String)
    (collection : Collection) : List (String × FilterEntryType) :=
  [("_and", FilterEntryType.ref (GType.listOf (GType.filterRef collectionName))),
   ("_or", FilterEntryType.ref (GType.listOf (GType.filterRef collectionName)))]
  ++ collection.fields.filterMap (filterFieldEntry schema collectionName collection.primary)

/-! ## Plain runtime values and the argument decoder (`parseArgs`) -/

/-- A plain JavaScript value as produced by argument decoding and consumed by
the deep-argument bookkeeping: `undefined`, strings (graphql-js scalar AST
nodes carry their raw value as a string, booleans excepted), booleans, arrays
and plain objects (ordered key/value lists). -/
inductive PlainValue where
  | undefined
  | str (s : String)
  | bool (b : Bool)
  | arr (xs : List PlainValue)
  | obj (fields : List (String × PlainValue))

/-- A graphql-js value AST node, as matched on by `parseArgs` through
`argument.value.kind`. -/
inductive ValueNode where
  | objectV (fields : List (String × ValueNode))
  | listV (values : List ValueNode)
  | variableV (name : String)
  | intV (value : String)
  | floatV (value : String)
  | stringV (value : String)
  | booleanV (value : Bool)
  | nullV
  | enumV (value : String)

/-- The raw `.value` property access `(valueNode as any).value` performed by
the list branch (and, for the residual scalar kinds, by the final branch) of
`parseArgs`: nodes without a `value` property yield `undefined`. -/
def rawValue : ValueNode → PlainValue
  | ValueNode.intV s => PlainValue.str s
  | ValueNode.floatV s => PlainValue.str s
  | ValueNode.stringV s => PlainValue.str s
  | ValueNode.booleanV b => PlainValue.bool b
  | ValueNode.enumV s => PlainValue.str s
  | _ => PlainValue.undefined

/-- Assoc-list lookup mirroring a JavaScript property read `o[k]`. -/
def lookupF : List (String × PlainValue) → String → Option PlainValue
  | [], _ => none
  | (k, v) :: rest, key => if k == key then some v else lookupF rest key

mutual

/-- `parseArgs(args, variableValues)`: each argument node is decoded by the
kind of its value — object nodes recurse, variable references are looked up
in the bindings (an unbound variable flows through as `undefined`), list
nodes decode object elements recursively and read `.value` off every other
element, and the remaining scalar kinds read their `.value`. -/
def parseArgs (args : List (String × ValueNode))
    (variableValues : List (String × PlainValue)) : List (String × PlainValue) :=
  match args with
  | [] => []
  | (name, v) :: rest => (name, parseArgValue v variableValues) :: parseArgs rest variableValues

/-- Decoding of one argument value, by node kind. -/
def parseArgValue (v : ValueNode) (variableValues : List (String × PlainValue)) : PlainValue :=
  match v with
  | ValueNode.objectV fields => PlainValue.obj (parseArgs fields variableValues)
  | ValueNode.variableV name => (lookupF variableValues name).getD PlainValue.undefined
  | ValueNode.listV values => PlainValue.arr (parseListValues values variableValues)
  | other => rawValue other

/-- The `ListValue` branch of `parseArgs`: object elements are decoded
recursively, every other element contributes its raw `.value`. -/
def parseListValues (values : List ValueNode)
    (variableValues : List (String × PlainValue)) : List PlainValue :=
  match values with
  | [] => []
  | ValueNode.objectV fields :: rest =>
    PlainValue.obj (parseArgs fields variableValues) :: parseListValues rest variableValues
  | v :: rest => rawValue v :: parseListValues rest variableValues

end

/-! ## lodash `get`, `set`, `merge` and `mapKeys`, as used on `query.deep` -/

/-- Assoc-list update mirroring lodash writing an existing or new key: an
existing key is overwritten in place, a new key is appended. -/
def setF : List (String × PlainValue) → String → PlainValue → List (String × PlainValue)
  | [], key, nv => [(key, nv)]
  | (k, v) :: rest, key, nv =>
    if k == key then (k, nv) :: rest else (k, v) :: setF rest key nv

/-- Splitting of a dotted lodash path (`stringToPath`): "a.b" becomes
["a", "b"]. -/
def splitDotsAux : List Char → List Char → List String
  | [], acc => [String.mk acc.reverse]
  | c :: rest, acc =>
    if c == '.' then String.mk acc.reverse :: splitDotsAux rest []
    else splitDotsAux rest (c :: acc)

/-- lodash path splitting of a dotted key string. -/
def toPath (s : String) : List String := splitDotsAux s.toList []

/-- lodash `get(v, path)`: walks the path, yielding `undefined` as soon as a
step cannot be taken. -/
def lget : PlainValue → List String → PlainValue
  | v, [] => v
  | PlainValue.obj o, k :: rest =>
    match lookupF o k with
    | some v => lget v rest
    | none => PlainValue.undefined
  | _, _ :: _ => PlainValue.undefined

/-- lodash `set(v, path, nv)`: writes `nv` at the path, creating fresh empty
objects along the way wherever the present value is not an object (the values
`set` receives here are always rooted at the `query.deep` object). -/
def lset : PlainValue → List String → PlainValue → PlainValue
  | v, [], _ => v
  | v, [k], nv =>
    match v with
    | PlainValue.obj o => PlainValue.obj (setF o k nv)
    | other => other
  | v, k :: k2 :: rest, nv =>
    match v with
    | PlainValue.obj o =>
      let child := match lookupF o k with
        | some (PlainValue.obj co) => PlainValue.obj co
        | _ => PlainValue.obj []
      PlainValue.obj (setF o k (lset child (k2 :: rest) nv))
    | other => other

mutual

/-- lodash `merge(object, source)`: plain objects merge recursively, an
`undefined` source leaves the object in place, and any other source value
wins. -/
def lmerge : PlainValue → PlainValue → PlainValue
  | PlainValue.obj o, PlainValue.obj s => PlainValue.obj (lmergeInto o s)
  | v, PlainValue.undefined => v
  | _, s => s

/-- Folding the source entries of a lodash `merge` into the object: each
source key merges with the entry already present under that key, or is
appended when absent. -/
def lmergeInto (o : List (String × PlainValue)) :
    List (String × PlainValue) → List (String × PlainValue)
  | [] => o
  | (k, sv) :: rest =>
    lmergeInto
      (match lookupF o k with
       | some ov => setF o k (lmerge ov sv)
       | none => o ++ [(k, sv)])
      rest

end

/-- lodash `mapKeys(record, (value, key) => ...)` with the fixed renaming
used for deep arguments: every sanitized option key gains the one-character
marker, `key` becoming `"_" ++ key`. -/
def prefixKeys (record : List (String × PlainValue)) : List (String × PlainValue) :=
  record.map fun kv => ("_" ++ kv.1, kv.2)

/-! ## The selection planner (`parseFields` inside `getData`) -/

/-- A graphql-js selection node, restricted to the kinds `parseFields`
distinguishes: plain fields (name, argument nodes, optional selection set),
inline fragments (type condition plus selection set) and fragment spreads
(skipped by the kind check). -/
inductive Selection where
  | field (name : String) (arguments : List (String × ValueNode))
      (selectionSet : Option (List Selection))
  | inlineFragment (typeCondition : String) (selectionSet : List Selection)
  | fragmentSpread (name : String)

/-- The external `sanitizeQuery` collaborator (utils/sanitize-query), applied
to a decoded argument record; kept abstract, per the spec it is delegated to
an external sanitizer. -/
def SanitizeFn : Type := List (String × PlainValue) → List (String × PlainValue)

mutual

/-- The recursive closure `parseFields(selections, parent?)` of `getData`:
walks a selection list, returning the emitted dotted leaf paths together with
the updated `query.deep` value (threaded state for the mutation the closure
performs). -/
def parseFields (sanitize : SanitizeFn) (variableValues : List (String × PlainValue)) :
    List Selection → Option String → PlainValue → List String × PlainValue
  | [], _, deep => ([], deep)
  | selection :: rest, parent, deep =>
    let headResult := parseFieldsStep sanitize variableValues selection parent deep
    let restResult := parseFields sanitize variableValues rest parent headResult.2
    (headResult.1 ++ restResult.1, restResult.2)

/-- One iteration of the `for` loop of `parseFields`: fragment spreads fail
the kind check; reserved (double-underscore) names are skipped; an inline
fragment contributes the `parent:Type` path prefix and recurses; a field
selection recurses into its selection set (emitting only leaf paths) or
emits its own dotted path, and, when it carries arguments, records the
sanitized, marker-prefixed deep block at its path (merging with whatever is
already recorded there). -/
def parseFieldsStep (sanitize : SanitizeFn) (variableValues : List (String × PlainValue)) :
    Selection → Option String → PlainValue → List String × PlainValue
  | Selection.fragmentSpread _, _, deep => ([], deep)
  | Selection.inlineFragment typeCondition selectionSet, parent, deep =>
    if strStarts typeCondition "__" then ([], deep)
    else
      -- `current = \x60${parent}:${name}\x60`: an absent parent prints as "undefined"
      let current := (match parent with
        | some p => p
        | none => "undefined") ++ ":" ++ typeCondition
      parseFields sanitize variableValues selectionSet (some current) deep
  | Selection.field name arguments selectionSet, parent, deep =>
    if strStarts name "__" then ([], deep)
    else
      let current := match parent with
        | some p => p ++ "." ++ name
        | none => name
      let childResult := match selectionSet with
        | some selections => parseFields sanitize variableValues selections (some current) deep
        | none => ([current], deep)
      let deepAfter :=
        if arguments.length > 0 then
          -- `if (!query.deep) query.deep = \x7b\x7d`
          let deepInit := match childResult.2 with
            | PlainValue.undefined => PlainValue.obj []
            | d => d
          let args := parseArgs arguments variableValues
          lset deepInit (toPath current)
            (lmerge (lget deepInit (toPath current))
              (PlainValue.obj (prefixKeys (sanitize args))))
        else childResult.2
      (childResult.1, deepAfter)

end

/-! ## Accessor dispatch (the `switch (collection)` of `getData`) -/

/-- The backend accessor services a query can be dispatched to. -/
inductive ServiceKind where
  | activity
  | files
  | folders
  | permissions
  | presets
  | relations
  | revisions
  | roles
  | settings
  | users
  | webhooks
  | items (collection : String)
deriving DecidableEq

/-- The case labels of the `switch (collection)` statement of `getData`, in
source order, each paired with the service its body assigns (the
`directus_collections` and `directus_fields` cases are commented out in the
source; the `directus_folders` label appears twice). -/
def caseLabels : List (String × ServiceKind) :=
  [("directus_activity", ServiceKind.activity),
   ("directus_files", ServiceKind.files),
   ("directus_folders", ServiceKind.folders),
   ("directus_folders", ServiceKind.folders),
   ("directus_permissions", ServiceKind.permissions),
   ("directus_presets", ServiceKind.presets),
   ("directus_relations", ServiceKind.relations),
   ("directus_revisions", ServiceKind.revisions),
   ("directus_roles", ServiceKind.roles),
   ("directus_settings", ServiceKind.settings),
   ("directus_users", ServiceKind.users),
   ("directus_webhooks", ServiceKind.webhooks)]

/-- The assignments to `service` the switch executes: none of the cases ends
in `break`, so control enters at the first matching label and runs every
following case body, finishing with the `default` body, which constructs the
generic `ItemsService(collection)`. -/
def executedAssignments (collection : String) : List ServiceKind :=
  ((caseLabels.dropWhile fun kv => !(kv.1 == collection)).map Prod.snd)
    ++ [ServiceKind.items collection]

/-- The value `service` holds after the switch: each executed case body
overwrites the previous assignment, so the last executed assignment wins
(the fold seeds with the default, which is immediately overwritten since the
executed list always ends with the default assignment). -/
def dispatchService (collection : String) : ServiceKind :=
  (executedAssignments collection).foldl (fun _ assignment => assignment)
    (ServiceKind.items collection)

/-! ## Singleton lookup and the read dispatch tail of `getData` -/

/-- One row of collection metadata, carrying the `singleton` flag: the shape
shared by the dynamic `directus_collections` lookup and the static
`systemCollectionRows` fallback table. -/
structure CollectionMeta where
  collection : String
  singleton : Bool
deriving DecidableEq

/-- `collectionInfo`: the dynamic metadata lookup (the awaited knex select,
modelled as a function, yielding `undefined` on a miss) with `||` fallback to
`systemCollectionRows.find((m) => m?.collection === collection)`. -/
def collectionInfoFor (dynamicMeta : String → Option CollectionMeta)
    (systemCollectionRows : List CollectionMeta) (collection : String) : Option CollectionMeta :=
  (dynamicMeta collection).orElse fun _ =>
    systemCollectionRows.find? fun meta => meta.collection == collection

/-- The query object assembled by `getData` before dispatch: the sanitized
top-level options, the planned field paths, and the deep argument record. -/
structure Query where
  sanitized : List (String × PlainValue)
  fields : List String
  deep : PlainValue

/-- The read operation `getData` dispatches to, with the option record
`{ stripNonRequested: false }` carried as the boolean. -/
inductive ReadDispatch where
  | readSingleton (query : Query) (stripNonRequested : Bool)
  | readByQuery (query : Query) (stripNonRequested : Bool)

/-- The selected service together with the read dispatch: the observable
outcome of one `getData` call, everything after it being the collaborator's
work. -/
structure GetDataResult where
  service : ServiceKind
  dispatch : ReadDispatch

/-- `getData(collection, selections, argsArray, variableValues)` up to the
read call: decode the arguments, sanitize them, plan the selection (threading
`query.deep`, which starts absent — the top-level argument sanitizer output
carries no deep key since `deep` is not a declared argument), select the
service by the switch, look up singleton-ness dynamically with static
fallback, and dispatch to `readSingleton` or `readByQuery` with
`stripNonRequested: false`. -/
def getData (sanitize : SanitizeFn) (variableValues : List (String × PlainValue))
    (collection : String) (selections : List Selection)
    (argsArray : List (String × ValueNode))
    (dynamicMeta : String → Option CollectionMeta)
    (systemCollectionRows : List CollectionMeta) : GetDataResult :=
  let args := parseArgs argsArray variableValues
  let sanitized := sanitize args
  let planned := parseFields sanitize variableValues selections none PlainValue.undefined
  let query : Query := { sanitized := sanitized, fields := planned.1, deep := planned.2 }
  let service := dispatchService collection
  let collectionInfo := collectionInfoFor dynamicMeta systemCollectionRows collection
  let dispatch :=
    if (collectionInfo.map CollectionMeta.singleton).getD false then
      ReadDispatch.readSingleton query false
    else
      ReadDispatch.readByQuery query false
  { service := service, dispatch := dispatch }

/-! ## Union member resolution (`resolveType` of the m2a `GraphQLUnionType`) -/

/-- A response path key: a field name or a list index. -/
inductive Key where
  | str (s : String)
  | idx (n : Nat)
deriving DecidableEq

/-- The graphql-js `info.path` linked list, leaf first: `root` is the node
whose `prev` is `undefined` (the top-level field), `node` holds a key and its
`prev`. -/
inductive GPath where
  | root (key : Key)
  | node (key : Key) (prev : GPath)

/-- The `while (currentPath.prev)` loop of `resolveType`: pushes the key of
every path node that has a `prev` (leaf first), stopping at — and not
pushing — the root. -/
def loopKeys : GPath → List Key
  | GPath.root _ => []
  | GPath.node key prev => key :: loopKeys prev

/-- JavaScript `Array.prototype.slice(1, -1)`: drop the first and the last
element. -/
def sliceOneToLast (l : List Key) : List Key := (l.drop 1).dropLast

/-- One property read `parent[pathPart]` during the walk: reading any
property of `undefined` throws a `TypeError`; objects are read by string key
(a numeric key reads the stringified index, finding nothing in our record
model), arrays by index; any other read yields `undefined`. -/
def getProp : PlainValue → Key → Except String PlainValue
  | PlainValue.undefined, _ => Except.error "TypeError"
  | PlainValue.obj o, Key.str k => Except.ok ((lookupF o k).getD PlainValue.undefined)
  | PlainValue.obj _, Key.idx _ => Except.ok PlainValue.undefined
  | PlainValue.arr xs, Key.idx n => Except.ok (xs.getD n PlainValue.undefined)
  | PlainValue.arr _, Key.str _ => Except.ok PlainValue.undefined
  | _, _ => Except.ok PlainValue.undefined

/-- The `for (const pathPart of path) parent = parent[pathPart]` walk. -/
def walkPath (v : PlainValue) : List Key → Except String PlainValue
  | [] => Except.ok v
  | key :: rest => do walkPath (← getProp v key) rest

/-- The string comparison `GraphQLType.name === type` of the final
`types.find`: the union member name (a string) against whatever value was
read off the parent. -/
def nameMatches (discriminatorValue : PlainValue) (memberName : String) : Bool :=
  match discriminatorValue with
  | PlainValue.str s => s == memberName
  | _ => false

/-- `resolveType(value, context, info)` of the compiled m2a union: collect
the non-root path keys, reverse, `slice(1, -1)`, walk `context.data` (the
full result of the enclosing top-level resolver) along the remaining keys,
read the relation's discriminator field (`one_collection_field`) off the
node reached, and return the union member whose name equals that value
(`none` when no member matches).  An `error` result is a thrown
`TypeError`. -/
def resolveType (memberNames : List String) (discriminatorField : String)
    (contextData : PlainValue) (infoPath : GPath) : Except String (Option String) := do
  let path := sliceOneToLast (loopKeys infoPath).reverse
  let parent ← walkPath contextData path
  let discriminatorValue ← getProp parent (Key.str discriminatorField)
  pure (memberNames.find? fun memberName => nameMatches discriminatorValue memberName)

/-! ## The `execute` entry point -/

/-- The payload exception `InvalidPayloadException('GraphQL validation
error.', { graphqlErrors })` thrown when the document fails validation. -/
structure PayloadError where
  message : String
  graphqlErrors : List String
deriving DecidableEq

/-- `execute({document, ...})`: the document is validated against the
compiled schema first (graphql-js `validate`, an upstream collaborator whose
verdict is the `validationErrors` parameter); a non-empty batch aborts the
request with a payload error before the graphql-js `execute` engine — and
with it every field resolver and hence every `readByQuery`/`readSingleton`
call — runs.  The engine is modelled as a collaborator returning its
formatted result together with the number of data-access calls the resolvers
made; that count is the pair's second component. -/
def executeRequest (validationErrors : List String)
    (engine : Unit → List (String × PlainValue) × Nat) :
    Except PayloadError (List (String × PlainValue)) × Nat :=
  if validationErrors.length > 0 then
    (Except.error { message := "GraphQL validation error.", graphqlErrors := validationErrors }, 0)
  else
    let result := engine ()
    (Except.ok result.1, result.2)

/-! ## Helper lemmas on the assoc-list and merge primitives -/

theorem lookupF_setF_self (o : List (String × PlainValue)) (k : String) (nv : PlainValue) :
    (lookupF (setF o k nv) k).isSome := by
  induction o with
  | nil => simp [setF, lookupF]
  | cons kv rest ih =>
    obtain ⟨k0, v0⟩ := kv
    by_cases hk : k0 = k
    · simp [setF, lookupF, hk]
    · simp [setF, lookupF, hk]
      exact ih

theorem lookupF_setF_ne (o : List (String × PlainValue)) (k key : String) (nv : PlainValue)
    (hne : k ≠ key) : lookupF (setF o k nv) key = lookupF o key := by
  induction o with
  | nil => simp [setF, lookupF, hne]
  | cons kv rest ih =>
    obtain ⟨k0, v0⟩ := kv
    by_cases hk : k0 = k
    · subst hk
      simp [setF, lookupF, hne]
    · simp [setF, hk, lookupF]
      by_cases hkey : k0 = key
      · simp [hkey]
      · simp [hkey, ih]

theorem lookupF_setF_isSome (o : List (String × PlainValue)) (k key : String) (nv : PlainValue)
    (h : (lookupF o key).isSome) : (lookupF (setF o k nv) key).isSome := by
  by_cases hkk : k = key
  · subst hkk
    exact lookupF_setF_self o k nv
  · rw [lookupF_setF_ne o k key nv hkk]
    exact h

theorem lookupF_append_isSome (o rest2 : List (String × PlainValue)) (key : String)
    (h : (lookupF o key).isSome) : (lookupF (o ++ rest2) key).isSome := by
  induction o with
  | nil => simp [lookupF] at h
  | cons kv rest ih =>
    by_cases hkey : kv.1 = key
    · simp [lookupF, hkey]
    · simp [lookupF, hkey] at h ⊢
      exact ih h

/-- Keys already present in the object survive a lodash merge of any source
record into it: merging never clobbers what was recorded before. -/
theorem lmergeInto_preserves (s o : List (String × PlainValue)) (key : String)
    (h : (lookupF o key).isSome) : (lookupF (lmergeInto o s) key).isSome := by
  induction s generalizing o with
  | nil => simpa [lmergeInto] using h
  | cons kv rest ih =>
    obtain ⟨k, sv⟩ := kv
    rw [lmergeInto]
    cases hl : lookupF o k with
    | some ov =>
      simp only [hl]
      exact ih _ (lookupF_setF_isSome o k key (lmerge ov sv) h)
    | none =>
      simp only [hl]
      exact ih _ (lookupF_append_isSome o [(k, sv)] key h)

/-- Any entry the per-field object compiler emits keeps the field's own name
as the key, and only non-reserved names produce an entry. -/
theorem objectFieldEntry_key (rels : List Relation) (c : Collection) (f : Field)
    (p : String × GFieldConfig) (h : objectFieldEntry rels c f = some p) :
    p.1 = f.field ∧ strStarts f.field "__" = false := by
  unfold objectFieldEntry at h
  by_cases hs : strStarts f.field "__"
  · simp [hs] at h
  · simp [hs] at h
    exact ⟨by rw [← h], by simpa using hs⟩

/-- Any entry the per-field filter compiler emits keeps the field's own name
as the key, and only non-reserved names produce an entry. -/
theorem filterFieldEntry_key (schema : SchemaOverview) (cn primary : String) (f : Field)
    (p : String × FilterEntryType) (h : filterFieldEntry schema cn primary f = some p) :
    p.1 = f.field ∧ strStarts f.field "__" = false := by
  unfold filterFieldEntry at h
  by_cases hs : strStarts f.field "__"
  · simp [hs] at h
  · simp only [hs, Bool.false_eq_true, if_false] at h
    obtain ⟨p1, p2⟩ := p
    refine ⟨?_, by simpa using hs⟩
    split at h
    · split at h <;> simp_all
    · simp_all

/-- A reserved-named field selection at the head of a selection list is
skipped whole by the planner: neither the path list nor the deep state
changes. -/
theorem parseFields_skip_field (san : SanitizeFn) (vars : List (String × PlainValue))
    (n : String) (arguments : List (String × ValueNode))
    (selectionSet : Option (List Selection)) (rest : List Selection)
    (parent : Option String) (deep : PlainValue)
    (hn : strStarts n "__" = true) :
    parseFields san vars (Selection.field n arguments selectionSet :: rest) parent deep
      = parseFields san vars rest parent deep := by
  rw [parseFields, parseFieldsStep.eq_def]
  dsimp only
  rw [if_pos hn]
  simp

/-- An inline fragment whose type condition is reserved-named is skipped
whole by the planner. -/
theorem parseFields_skip_fragment (san : SanitizeFn) (vars : List (String × PlainValue))
    (tn : String) (fragSet : List Selection) (rest : List Selection)
    (parent : Option String) (deep : PlainValue)
    (ht : strStarts tn "__" = true) :
    parseFields san vars (Selection.inlineFragment tn fragSet :: rest) parent deep
      = parseFields san vars rest parent deep := by
  rw [parseFields, parseFieldsStep.eq_def]
  dsimp only
  rw [if_pos ht]
  simp

/-! ## Demo fixtures (a small concrete schema exercising all relation kinds) -/

/-- The one-to-many example relation: `book.author` stores the foreign key,
so from the perspective of `author.books` the relation is one-to-many. -/
def authorBooksRel : Relation :=
  { many_collection := "book", many_field := "author",
    one_collection := some "author", one_field := some "books",
    one_collection_field := none, one_allowed_collections := none }

/-- The many-to-any example relation: `sections.item` with the discriminator
field `collection` and allowed target collections `headings`/`paragraphs`. -/
def sectionsItemRel : Relation :=
  { many_collection := "sections", many_field := "item",
    one_collection := none, one_field := none,
    one_collection_field := some "collection",
    one_allowed_collections := some ["headings", "paragraphs"] }

def authorCollection : Collection :=
  { collection := "author", primary := "id",
    fields := [{ field := "id", type := "integer" },
               { field := "name", type := "string" },
               { field := "books", type := "alias" }] }

def bookCollection : Collection :=
  { collection := "book", primary := "id",
    fields := [{ field := "id", type := "integer" },
               { field := "title", type := "string" },
               { field := "author", type := "integer" }] }

def sectionsCollection : Collection :=
  { collection := "sections", primary := "id",
    fields := [{ field := "id", type := "integer" },
               { field := "collection", type := "string" },
               { field := "item", type := "alias" }] }

def demoRelations : List Relation := [authorBooksRel, sectionsItemRel]

def demoSchema : SchemaOverview :=
  { collections := [authorCollection, bookCollection, sectionsCollection],
    relations := demoRelations }

/-- A demo sanitizer collaborator instance: the identity on the record. -/
def sanitizeId : SanitizeFn := fun record => record

/-! ## Claim theorems -/

/-- C1: claimed was that each named system collection resolves to exactly its
specialized accessor.  Evaluating the dispatch at "directus_activity" shows
the bug: the matching case body assigns the specialized activity accessor
first (the head of the executed assignments), but, no case ending in `break`,
control falls through every later case and the default, so the service
`getData` actually uses is the generic item accessor. -/
theorem claim1_dispatch_fallthrough :
    dispatchService "directus_activity" = ServiceKind.items "directus_activity"
    ∧ (executedAssignments "directus_activity").head? = some ServiceKind.activity :=
  ⟨rfl, rfl⟩

/-- C2 counterexample: in the demo schema `author.books` is classified
one-to-many, yet the compiled filter-input type of `author` does contain a
member for it (embedding the `book` collection's filter type), so one-to-many
fields are not excluded from filter types as the claim states. -/
theorem claim2_counterexample :
    getRelationType authorBooksRel "author" "books" = some RelationType.o2m
    ∧ List.lookup "books" (getFilterArgsFields demoSchema "author" authorCollection)
      = some (FilterEntryType.ref (GType.filterRef "book")) :=
  ⟨rfl, rfl⟩

/-- C2 (amended): the compiled filter-input type contains a member for a
relation field when it is classified many-to-one (embedding the one-side
collection's filter type) and also when it is classified one-to-many
(embedding the many-side collection's filter type); only a many-to-any field
contributes no member to the filter-input type. -/
theorem claim2_amended (schema : SchemaOverview) (cn : String) (c : Collection)
    (f : Field) (rel : Relation) (hf : f ∈ c.fields)
    (hp : strStarts f.field "__" = false)
    (hrel : findRelationForField schema.relations cn f.field = some rel) :
    (getRelationType rel cn f.field = some RelationType.m2o →
      (f.field, FilterEntryType.ref (GType.filterRef (bangStr rel.one_collection)))
        ∈ getFilterArgsFields schema cn c)
    ∧ (getRelationType rel cn f.field = some RelationType.o2m →
      (f.field, FilterEntryType.ref (GType.filterRef rel.many_collection))
        ∈ getFilterArgsFields schema cn c)
    ∧ (getRelationType rel cn f.field = some RelationType.m2a →
      filterFieldEntry schema cn c.primary f = none) := by
  refine ⟨fun hm => ?_, fun hm => ?_, fun hm => ?_⟩
  · refine List.mem_append.mpr (Or.inr (List.mem_filterMap.mpr ⟨f, hf, ?_⟩))
    unfold filterFieldEntry
    simp [hp, hrel, hm]
  · refine List.mem_append.mpr (Or.inr (List.mem_filterMap.mpr ⟨f, hf, ?_⟩))
    unfold filterFieldEntry
    simp [hp, hrel, hm]
  · unfold filterFieldEntry
    simp [hp, hrel, hm]

/-- C2 amended witness: the one-to-many branch at the demo schema. -/
theorem claim2_amended_witness :
    ("books", FilterEntryType.ref (GType.filterRef "book"))
      ∈ getFilterArgsFields demoSchema "author" authorCollection :=
  (claim2_amended demoSchema "author" authorCollection
    { field := "books", type := "alias" } authorBooksRel (by decide) rfl rfl).2.1 rfl

/-- The response row at index 0 of a non-singleton m2a round trip: its
discriminator field `collection` names the allowed collection "headings". -/
def m2aRow : PlainValue :=
  PlainValue.obj [("collection", PlainValue.str "headings"),
                  ("item", PlainValue.obj [("id", PlainValue.str "1")])]

/-- The full top-level result (`context.data`) of the enclosing resolver: a
list of rows, as for every non-singleton collection. -/
def m2aData : PlainValue := PlainValue.arr [m2aRow]

/-- The graphql-js response path of the value the union must resolve:
`sections` (top-level field) → index 0 → `item` (the m2a field). -/
def m2aPath : GPath :=
  GPath.node (Key.str "item") (GPath.node (Key.idx 0) (GPath.root (Key.str "sections")))

/-- C3: claimed was the round trip — a response whose enclosing object's
discriminator holds the member name "headings" resolves to the member
"headings".  The evaluation shows the failure: the key-collecting loop
already excludes the root key and `slice(1, -1)` then drops another leading
key, so for this list-collection response the walk stops at the result array
itself instead of the enclosing row; the discriminator read off the array is
`undefined` and no member is returned, even though the enclosing row (the
second and third conjuncts) carries the discriminator "headings", one of the
declared members (fourth conjunct). -/
theorem claim3_resolveType_wrong_node :
    resolveType ["headings", "paragraphs"] "collection" m2aData m2aPath = Except.ok none
    ∧ walkPath m2aData [Key.idx 0] = Except.ok m2aRow
    ∧ getProp m2aRow (Key.str "collection") = Except.ok (PlainValue.str "headings")
    ∧ "headings" ∈ ["headings", "paragraphs"] :=
  ⟨rfl, rfl, rfl, by decide⟩

/-- C4: a document with validation errors makes `execute` raise the payload
error carrying exactly that batch of errors, and the engine — and with it
every resolver and every data-access call — never runs: the data-access call
count of the outcome is zero. -/
theorem claim4_validation_aborts (validationErrors : List String)
    (engine : Unit → List (String × PlainValue) × Nat)
    (h : validationErrors.length > 0) :
    executeRequest validationErrors engine
      = (Except.error ⟨"GraphQL validation error.", validationErrors⟩, 0) := by
  simp [executeRequest, h]

/-- C4 witness: one failing document, against an engine that would have made
five data-access calls had it run. -/
theorem claim4_witness :
    executeRequest ["bad query"] (fun _ => ([("data", PlainValue.str "x")], 5))
      = (Except.error ⟨"GraphQL validation error.", ["bad query"]⟩, 0) :=
  claim4_validation_aborts ["bad query"] (fun _ => ([("data", PlainValue.str "x")], 5))
    (by decide)

/-- C5: `getData` derives singleton-ness from the dynamic metadata lookup,
falling back to the static system-collection table exactly when the dynamic
lookup returns nothing (third and fourth conjuncts); a collection whose
resulting metadata is marked singleton dispatches to `readSingleton` and any
other collection to `readByQuery`, in both cases with the planned field
paths in the query and with non-requested-field stripping disabled (the
`false` flag). -/
theorem claim5_singleton_dispatch (sanitize : SanitizeFn)
    (variableValues : List (String × PlainValue)) (collection : String)
    (selections : List Selection) (argsArray : List (String × ValueNode))
    (dynamicMeta : String → Option CollectionMeta)
    (systemCollectionRows : List CollectionMeta) :
    (((collectionInfoFor dynamicMeta systemCollectionRows collection).map
        CollectionMeta.singleton).getD false = true →
      (getData sanitize variableValues collection selections argsArray dynamicMeta
          systemCollectionRows).dispatch
        = ReadDispatch.readSingleton
            { sanitized := sanitize (parseArgs argsArray variableValues),
              fields := (parseFields sanitize variableValues selections none PlainValue.undefined).1,
              deep := (parseFields sanitize variableValues selections none PlainValue.undefined).2 }
            false)
    ∧ (((collectionInfoFor dynamicMeta systemCollectionRows collection).map
        CollectionMeta.singleton).getD false = false →
      (getData sanitize variableValues collection selections argsArray dynamicMeta
          systemCollectionRows).dispatch
        = ReadDispatch.readByQuery
            { sanitized := sanitize (parseArgs argsArray variableValues),
              fields := (parseFields sanitize variableValues selections none PlainValue.undefined).1,
              deep := (parseFields sanitize variableValues selections none PlainValue.undefined).2 }
            false)
    ∧ (∀ m, dynamicMeta collection = some m →
        collectionInfoFor dynamicMeta systemCollectionRows collection = some m)
    ∧ (dynamicMeta collection = none →
        collectionInfoFor dynamicMeta systemCollectionRows collection
          = systemCollectionRows.find? fun meta => meta.collection == collection) := by
  refine ⟨fun h => ?_, fun h => ?_, fun m hm => ?_, fun hm => ?_⟩
  · simp [getData, h]
  · simp [getData, h]
  · simp [collectionInfoFor, hm, Option.orElse]
  · simp [collectionInfoFor, hm, Option.orElse]

/-- The static metadata row of the singleton system collection
`directus_settings`. -/
def settingsMetaRow : CollectionMeta := { collection := "directus_settings", singleton := true }

/-- C5 witness: the dynamic lookup misses, the static fallback marks
`directus_settings` singleton, and the read dispatch is the singleton path
carrying the planned field with stripping disabled. -/
theorem claim5_witness :
    (getData sanitizeId [] "directus_settings" [Selection.field "id" [] none] []
        (fun _ => none) [settingsMetaRow]).dispatch
      = ReadDispatch.readSingleton
          { sanitized := [], fields := ["id"], deep := PlainValue.undefined } false := by
  have h := (claim5_singleton_dispatch sanitizeId [] "directus_settings"
    [Selection.field "id" [] none] [] (fun _ => none) [settingsMetaRow]).1 (by decide)
  simpa [parseFields, parseFieldsStep, parseArgs, sanitizeId, strStarts, strStartsAux] using h

/-- The selection `{a {b c}}`, carrying no arguments. -/
def selAbc : Selection :=
  Selection.field "a" [] (some [Selection.field "b" [] none, Selection.field "c" [] none])

/-- The selection `{a(limit: 5) {b}}`. -/
def selA5 : Selection :=
  Selection.field "a" [("limit", ValueNode.intV "5")] (some [Selection.field "b" [] none])

/-- C6: the planner emits only leaf paths — `{a {b c}}` yields exactly
["a.b", "a.c"] in order and no entry for the parent path "a";
`{a(limit: 5) {b}}` yields ["a.b"] plus a deep entry keyed "a" holding the
sanitized argument record with every option key renamed by the "_" marker;
against a deep state already holding a block at "a" the new block is merged
into the old one by lodash merge (third conjunct), and merging preserves
every key already recorded (fourth conjunct: it never replaces the block). -/
theorem claim6_parseFields_plan (san : SanitizeFn) (vars : List (String × PlainValue))
    (e s : List (String × PlainValue)) (key : String) :
    parseFields san vars [selAbc] none PlainValue.undefined
      = (["a.b", "a.c"], PlainValue.undefined)
    ∧ parseFields san vars [selA5] none PlainValue.undefined
      = (["a.b"], PlainValue.obj
          [("a", PlainValue.obj (prefixKeys (san [("limit", PlainValue.str "5")])))])
    ∧ parseFields san vars [selA5] none (PlainValue.obj [("a", PlainValue.obj e)])
      = (["a.b"], PlainValue.obj [("a",
          lmerge (PlainValue.obj e)
            (PlainValue.obj (prefixKeys (san [("limit", PlainValue.str "5")]))))])
    ∧ ((lookupF e key).isSome → (lookupF (lmergeInto e s) key).isSome) := by
  refine ⟨?_, ?_, ?_, lmergeInto_preserves s e key⟩
  · simp [selAbc, parseFields, parseFieldsStep, strStarts, strStartsAux]
  · simp [selA5, parseFields, parseFieldsStep, strStarts, strStartsAux, parseArgs,
      parseArgValue, rawValue, toPath, splitDotsAux, lget, lset, lookupF, setF, lmerge]
  · simp [selA5, parseFields, parseFieldsStep, strStarts, strStartsAux, parseArgs,
      parseArgValue, rawValue, toPath, splitDotsAux, lget, lset, lookupF, setF]

/-- C6 witness: a deep block holding a `_filter` entry keeps that entry after
a `_limit` block is merged in at the same path. -/
theorem claim6_witness :
    (lookupF (lmergeInto [("_filter", PlainValue.str "x")]
      [("_limit", PlainValue.str "5")]) "_filter").isSome :=
  (claim6_parseFields_plan sanitizeId [] [("_filter", PlainValue.str "x")]
    [("_limit", PlainValue.str "5")] "_filter").2.2.2 rfl

/-- C7: in the compiled object type, a many-to-one field gets the related
collection's (singular) object type; a one-to-many field gets a list of the
related collection's object type and accepts the shared sort/limit/offset/
page/search arguments plus a filter argument typed by the related
collection's filter-input type; a many-to-any field gets a union whose
member set is exactly the relation's declared allowed collections. -/
theorem claim7_relation_field_types (rels : List Relation) (c : Collection) (f : Field)
    (rel : Relation) (hf : f ∈ c.fields) (hp : strStarts f.field "__" = false)
    (hrel : findRelationForField rels c.collection f.field = some rel) :
    (getRelationType rel c.collection f.field = some RelationType.m2o →
      (f.field, { type := GType.objectRef (bangStr rel.one_collection), args := [] })
        ∈ fieldsObjectFor rels c)
    ∧ (getRelationType rel c.collection f.field = some RelationType.o2m →
      (f.field, { type := GType.listOf (GType.objectRef rel.many_collection),
                  args := [("sort", GType.listOf GType.stringT), ("limit", GType.intT),
                           ("offset", GType.intT), ("page", GType.intT),
                           ("search", GType.stringT),
                           ("filter", GType.filterRef rel.many_collection)] })
        ∈ fieldsObjectFor rels c)
    ∧ (∀ allowed, getRelationType rel c.collection f.field = some RelationType.m2a →
        rel.one_allowed_collections = some allowed →
        (f.field, { type := GType.unionT (c.collection ++ "__" ++ f.field) allowed, args := [] })
          ∈ fieldsObjectFor rels c) := by
  refine ⟨fun hm => ?_, fun hm => ?_, fun allowed hm ha => ?_⟩
  · refine List.mem_filterMap.mpr ⟨f, hf, ?_⟩
    unfold objectFieldEntry
    simp [hp, hrel, hm]
  · refine List.mem_filterMap.mpr ⟨f, hf, ?_⟩
    unfold objectFieldEntry
    simp [hp, hrel, hm, sharedArgs]
  · refine List.mem_filterMap.mpr ⟨f, hf, ?_⟩
    unfold objectFieldEntry
    simp [hp, hrel, hm, bangList, ha]

/-- C7 witness: the many-to-any branch at the demo schema — the compiled
`sections.item` field is the union named "sections__item" over exactly the
declared allowed collections. -/
theorem claim7_witness :
    ("item", { type := GType.unionT "sections__item" ["headings", "paragraphs"],
               args := [] : GFieldConfig })
      ∈ fieldsObjectFor demoRelations sectionsCollection :=
  (claim7_relation_field_types demoRelations sectionsCollection
    { field := "item", type := "alias" } sectionsItemRel (by decide) rfl rfl).2.2
    ["headings", "paragraphs"] rfl rfl

/-- C8: for a non-relation field, the compiled filter-input type holds the
operator-set input object named from the collection and field, with exactly
the fourteen members — equality, inequality, substring containment and its
negation, set membership and its negation (taking a list of the field's
scalar type), the four range comparisons, and the four null/empty checks
(taking a boolean) — every other operator taking the field's own scalar type
(the primary field being forced to the identifier scalar); and the filter
type exposes `_and`/`_or` members each taking a list of that same collection
filter type. -/
theorem claim8_filter_operators (schema : SchemaOverview) (cn : String) (c : Collection)
    (f : Field) (hf : f ∈ c.fields) (hp : strStarts f.field "__" = false)
    (hrel : findRelationForField schema.relations cn f.field = none) :
    ("_and", FilterEntryType.ref (GType.listOf (GType.filterRef cn)))
      ∈ getFilterArgsFields schema cn c
    ∧ ("_or", FilterEntryType.ref (GType.listOf (GType.filterRef cn)))
      ∈ getFilterArgsFields schema cn c
    ∧ (f.field, FilterEntryType.opInput (cn ++ "_" ++ f.field ++ "_filter_operators")
        (let fieldType := if c.primary == f.field then GType.idT else getGraphQLType f.type
         [("_eq", fieldType), ("_neq", fieldType),
          ("_contains", fieldType), ("_ncontains", fieldType),
          ("_in", GType.listOf fieldType), ("_nin", GType.listOf fieldType),
          ("_gt", fieldType), ("_gte", fieldType),
          ("_lt", fieldType), ("_lte", fieldType),
          ("_null", GType.booleanT), ("_nnull", GType.booleanT),
          ("_empty", GType.booleanT), ("_nempty", GType.booleanT)]))
      ∈ getFilterArgsFields schema cn c := by
  refine ⟨?_, ?_, ?_⟩
  · exact List.mem_append.mpr (Or.inl (by simp))
  · exact List.mem_append.mpr (Or.inl (by simp))
  · refine List.mem_append.mpr (Or.inr (List.mem_filterMap.mpr ⟨f, hf, ?_⟩))
    unfold filterFieldEntry
    simp [hp, hrel]

/-- C8 witness: the scalar field `book.title` of the demo schema. -/
theorem claim8_witness :
    ("title", FilterEntryType.opInput "book_title_filter_operators"
      [("_eq", GType.scalarT "string"), ("_neq", GType.scalarT "string"),
       ("_contains", GType.scalarT "string"), ("_ncontains", GType.scalarT "string"),
       ("_in", GType.listOf (GType.scalarT "string")),
       ("_nin", GType.listOf (GType.scalarT "string")),
       ("_gt", GType.scalarT "string"), ("_gte", GType.scalarT "string"),
       ("_lt", GType.scalarT "string"), ("_lte", GType.scalarT "string"),
       ("_null", GType.booleanT), ("_nnull", GType.booleanT),
       ("_empty", GType.booleanT), ("_nempty", GType.booleanT)])
      ∈ getFilterArgsFields demoSchema "book" bookCollection :=
  (claim8_filter_operators demoSchema "book" bookCollection
    { field := "title", type := "string" } (by decide) rfl rfl).2.2

/-- C9: no reserved double-underscore name is ever exposed — every member of
any compiled object type and of any compiled filter-input type has a
non-reserved name, and a reserved-named field selection (or a reserved type
condition of an inline fragment) is skipped whole by the planner,
contributing neither a path nor a deep entry. -/
theorem claim9_reserved_names (rels : List Relation) (schema : SchemaOverview) (cn : String)
    (c : Collection) (san : SanitizeFn) (vars : List (String × PlainValue))
    (n tn : String) (arguments : List (String × ValueNode))
    (selectionSet : Option (List Selection)) (fragSet : List Selection)
    (rest : List Selection) (parent : Option String) (deep : PlainValue)
    (hn : strStarts n "__" = true) (ht : strStarts tn "__" = true) :
    (∀ p ∈ fieldsObjectFor rels c, strStarts p.1 "__" = false)
    ∧ (∀ p ∈ getFilterArgsFields schema cn c, strStarts p.1 "__" = false)
    ∧ parseFields san vars (Selection.field n arguments selectionSet :: rest) parent deep
      = parseFields san vars rest parent deep
    ∧ parseFields san vars (Selection.inlineFragment tn fragSet :: rest) parent deep
      = parseFields san vars rest parent deep := by
  refine ⟨?_, ?_, ?_, ?_⟩
  · intro p hp
    obtain ⟨f, hf, he⟩ := List.mem_filterMap.mp hp
    obtain ⟨hkey, hres⟩ := objectFieldEntry_key rels c f p he
    rw [hkey]
    exact hres
  · intro p hp
    rcases List.mem_append.mp hp with hl | hr
    · simp only [List.mem_cons, List.mem_singleton, List.not_mem_nil, or_false] at hl
      rcases hl with h | h <;> subst h <;> rfl
    · obtain ⟨f, hf, he⟩ := List.mem_filterMap.mp hr
      obtain ⟨hkey, hres⟩ := filterFieldEntry_key schema cn c.primary f p he
      rw [hkey]
      exact hres
  · exact parseFields_skip_field san vars n arguments selectionSet rest parent deep hn
  · exact parseFields_skip_fragment san vars tn fragSet rest parent deep ht

/-- C9 witness: a reserved `__typename` selection contributes nothing. -/
theorem claim9_witness :
    parseFields sanitizeId [] [Selection.field "__typename" [] none] none PlainValue.undefined
      = parseFields sanitizeId [] [] none PlainValue.undefined :=
  (claim9_reserved_names [] demoSchema "author" authorCollection sanitizeId []
    "__typename" "__Heading" [] none [] [] none PlainValue.undefined rfl rfl).2.2.1

end Directus
